import Mathlib

/-!
Shallow embedding of the temporal text consolidation and motion inference
engine of the viralreplica repository.

The pipeline orchestrator (`PipelineOrchestrator` in the services layer)
flattens per-frame OCR detections, groups them by normalized text, filters
singleton groups as noise, and builds one `ConsolidatedTextInstance` per
surviving group, then enriches the instances with collaborator-supplied
layout, role, design-system and variation data into a `PipelineResult`.

Numbers are modelled by `ℚ` (the source uses JS doubles, but every operation
on this path is field arithmetic, exact on rationals); JS `Map` insertion
order is modelled by association lists in insertion order; `Array.sort` with
a numeric comparator (stable in JS) is modelled by a stable insertion sort;
`uuidv4()` is modelled by an explicit supply `uuid : ℕ → String` consumed in
call order.
-/

/-- Axis-aligned box in percent-of-frame coordinates (types/pipeline.ts). -/
structure BoundingBox where
  x : ℚ
  y : ℚ
  width : ℚ
  height : ℚ
deriving DecidableEq, Repr

/-- Shadow hint of the per-frame visual inference (types/pipeline.ts). -/
structure Shadow where
  x : ℚ
  y : ℚ
  blur : ℚ
  opacity : ℚ
deriving DecidableEq, Repr

/-- Typography hints; every field is optional in the source interface. -/
structure Typography where
  fontFamily : Option String
  fontSize : Option ℚ
  fontWeight : Option String
  lineHeight : Option ℚ
  letterSpacing : Option ℚ
deriving DecidableEq, Repr

/-- Styling hints; every field is optional in the source interface. -/
structure Styling where
  textColor : Option String
  strokeColor : Option String
  strokeWidth : Option ℚ
  shadow : Option Shadow
  opacity : Option ℚ
deriving DecidableEq, Repr

/-- The per-frame visual bundle, a pair of typography and styling hints. -/
structure Visuals where
  typography : Typography
  styling : Styling
deriving DecidableEq, Repr

/-- The all-fields-absent visual bundle, the orchestrator's default. -/
def emptyVisuals : Visuals :=
  { typography := ⟨none, none, none, none, none⟩,
    styling := ⟨none, none, none, none, none⟩ }

/-- One OCR hit from one frame (types/pipeline.ts `RawTextDetection`). -/
structure RawTextDetection where
  text : String
  frameIndex : ℕ
  boundingBox : BoundingBox
  confidence : ℚ
  language : Option String
deriving DecidableEq, Repr

/-- Per-frame bundle of detections and visual hints (`RawFrameAnalysis`). -/
structure RawFrameAnalysis where
  frameIndex : ℕ
  timestamp : ℚ
  detections : List RawTextDetection
  visuals : Visuals
deriving DecidableEq, Repr

/-- Position keyframe, time relative to the owning segment. -/
structure MotionKeyframe where
  time : ℚ
  x : ℚ
  y : ℚ
deriving DecidableEq, Repr

/-- Closed motion-shape enumeration of types/pipeline.ts. -/
inductive MotionType where
  | STATIC
  | LINEAR
  | EASE_IN
  | EASE_OUT
  | POP_IN
deriving DecidableEq, Repr

/-- Keyframes plus classification plus variance (`MotionPath`). -/
structure MotionPath where
  keyframes : List MotionKeyframe
  type : MotionType
  variance : ℚ
deriving DecidableEq, Repr

/-- The engine's core output unit (`ConsolidatedTextInstance`). -/
structure ConsolidatedTextInstance where
  id : String
  text : String
  startFrame : ℕ
  endFrame : ℕ
  startTime : ℚ
  endTime : ℚ
  duration : ℚ
  boundingBox : BoundingBox
  motionPath : MotionPath
  visuals : Visuals
  detectionConfidence : ℚ
deriving DecidableEq, Repr

/-- The whitespace class of the JS regexes and of String.prototype.trim,
restricted to its ASCII part. -/
def jsIsSpace (c : Char) : Bool :=
  c = ' ' || c = '\t' || c = '\n' || c = '\r' || c = '\x0b' || c = '\x0c'

/-- JS word characters, the class matched by a backslash-w (ASCII). -/
def isWordChar (c : Char) : Bool :=
  c.isAlphanum || c = '_'

/-- PipelineOrchestrator.normalizeText: trim, lower-case, then delete every
character that is neither a word character nor whitespace. -/
def normalizeText (s : String) : String :=
  String.mk
    ((((s.data.dropWhile jsIsSpace).reverse.dropWhile jsIsSpace).reverse.map
        Char.toLower).filter
      (fun c => isWordChar c || jsIsSpace c))

/-- Append a detection to its keyed group, creating the group at the end of
the list on first sight of the key; models JS Map insertion-order semantics. -/
def addToGroup {α : Type} (key : String) (d : α) :
    List (String × List α) → List (String × List α)
  | [] => [(key, [d])]
  | (k, g) :: rest =>
    if k = key then (k, g ++ [d]) :: rest else (k, g) :: addToGroup key d rest

/-- One iteration of the grouping loop: skip a detection whose key is the
empty string (JS falsy test on the normalized key), otherwise append the
detection to the group of its key. -/
def groupStep {α : Type} (keyOf : α → String) (acc : List (String × List α))
    (d : α) : List (String × List α) :=
  if keyOf d = "" then acc else addToGroup (keyOf d) d acc

/-- Grouping loop of aggregateDetections over the flattened detections. -/
def groupByNormalizedText {α : Type} (keyOf : α → String) (ds : List α) :
    List (String × List α) :=
  ds.foldl (groupStep keyOf) []

/-- Normalized-text key of a detection. -/
def detectionKey (d : RawTextDetection) : String :=
  normalizeText d.text

/-- Stable insertion step of the sorts below; equal keys keep their
relative order, matching the stability of Array.prototype.sort. -/
def insertSorted {α : Type} (le : α → α → Prop) [DecidableRel le] (d : α) :
    List α → List α
  | [] => [d]
  | x :: xs => if le d x then d :: x :: xs else x :: insertSorted le d xs

/-- Stable insertion sort over a decidable comparison. -/
def sortStable {α : Type} (le : α → α → Prop) [DecidableRel le] (l : List α) :
    List α :=
  l.foldr (insertSorted le) []

/-- Stable sort by frameIndex, modelling group.sort((a, b) => a.frameIndex - b.frameIndex). -/
def sortByFrame (l : List RawTextDetection) : List RawTextDetection :=
  sortStable (fun a b => a.frameIndex ≤ b.frameIndex) l

/-- Stable sort of keyframes by time, modelling sort((a, b) => a.time - b.time). -/
def sortByTime (l : List MotionKeyframe) : List MotionKeyframe :=
  sortStable (fun a b => a.time ≤ b.time) l

/-- Left fold sum, as the JS reduce((a, b) => a + b, 0). -/
def listSum (l : List ℚ) : ℚ :=
  l.foldl (· + ·) 0

/-- PipelineOrchestrator.calculateVariance: population variance, 0 on an
empty list. -/
def calculateVariance (values : List ℚ) : ℚ :=
  if values.length = 0 then 0
  else
    (values.foldl (fun sq n => sq + (n - listSum values / values.length) ^ 2) 0) /
      values.length

/-- The keyframes built inside calculateMotionPath: per-detection relative
time and box position, sorted by time. -/
def motionKeyframes (detections : List RawTextDetection) (fps baseStartTime : ℚ) :
    List MotionKeyframe :=
  sortByTime (detections.map fun d =>
    { time := (d.frameIndex : ℚ) / fps - baseStartTime,
      x := d.boundingBox.x,
      y := d.boundingBox.y })

/-- Sum of the x-variance and the y-variance of a keyframe list. -/
def keyframeTotalVariance (kfs : List MotionKeyframe) : ℚ :=
  calculateVariance (kfs.map (·.x)) + calculateVariance (kfs.map (·.y))

/-- PipelineOrchestrator.calculateMotionPath. -/
def calculateMotionPath (detections : List RawTextDetection)
    (fps baseStartTime : ℚ) : MotionPath :=
  if detections.length < 2 then
    { keyframes := [], type := .STATIC, variance := 0 }
  else
    { keyframes := motionKeyframes detections fps baseStartTime,
      type :=
        if 2 < keyframeTotalVariance (motionKeyframes detections fps baseStartTime) then
          .LINEAR
        else .STATIC,
      variance := keyframeTotalVariance (motionKeyframes detections fps baseStartTime) }

/-- The componentwise running sum of averageBoundingBox's reduce. -/
def sumBoundingBox (boxes : List BoundingBox) : BoundingBox :=
  boxes.foldl
    (fun acc box =>
      { x := acc.x + box.x,
        y := acc.y + box.y,
        width := acc.width + box.width,
        height := acc.height + box.height })
    { x := 0, y := 0, width := 0, height := 0 }

/-- PipelineOrchestrator.averageBoundingBox: componentwise sum divided by
the list length. -/
def averageBoundingBox (boxes : List BoundingBox) : BoundingBox :=
  { x := (sumBoundingBox boxes).x / boxes.length,
    y := (sumBoundingBox boxes).y / boxes.length,
    width := (sumBoundingBox boxes).width / boxes.length,
    height := (sumBoundingBox boxes).height / boxes.length }

/-- The best-confidence reduce of aggregateDetections: keep the previous
element unless the current one is strictly more confident. -/
def bestDetection (d0 : RawTextDetection) (rest : List RawTextDetection) :
    RawTextDetection :=
  rest.foldl
    (fun prev current =>
      if prev.confidence < current.confidence then current else prev)
    d0

/-- Visuals of the frame record whose frameIndex matches the best detection,
defaulting to the empty bundle when no such frame exists. -/
def findRepresentativeVisuals (frames : List RawFrameAnalysis)
    (best : RawTextDetection) : Visuals :=
  ((frames.find? (fun f => f.frameIndex == best.frameIndex)).map (·.visuals)).getD
    emptyVisuals

/-- Instance construction of the aggregation loop body for one surviving
group, given the id that uuidv4 returned for it. The empty-group branch is
unreachable: the loop only runs it on groups of length at least two (a JS
reduce on an empty array would throw). -/
def buildInstance (frames : List RawFrameAnalysis) (fps : ℚ) (id : String)
    (rawGroup : List RawTextDetection) : ConsolidatedTextInstance :=
  match sortByFrame rawGroup with
  | [] =>
    { id := id, text := "", startFrame := 0, endFrame := 0, startTime := 0,
      endTime := 0, duration := 1, boundingBox := ⟨0, 0, 0, 0⟩,
      motionPath := ⟨[], .STATIC, 0⟩, visuals := emptyVisuals,
      detectionConfidence := 0 }
  | d0 :: rest =>
    let startFrame := d0.frameIndex
    let endFrame := (List.getLastD rest d0).frameIndex
    let startTime := (startFrame : ℚ) / fps
    let endTime := (endFrame : ℚ) / fps
    let duration := endTime - startTime
    let best := bestDetection d0 rest
    { id := id,
      text := best.text,
      startFrame := startFrame,
      endFrame := endFrame,
      startTime := startTime,
      endTime := endTime,
      duration := if duration = 0 then 1 else duration,
      boundingBox := averageBoundingBox ((d0 :: rest).map (·.boundingBox)),
      motionPath := calculateMotionPath (d0 :: rest) fps startTime,
      visuals := findRepresentativeVisuals frames best,
      detectionConfidence := best.confidence }

/-- All detections of all frames in frame order (frames.flatMap). -/
def allDetections (frames : List RawFrameAnalysis) : List RawTextDetection :=
  frames.flatMap (·.detections)

/-- The grouping map of aggregateDetections as an insertion-ordered list. -/
def detectionGroups (frames : List RawFrameAnalysis) :
    List (String × List RawTextDetection) :=
  groupByNormalizedText detectionKey (allDetections frames)

/-- The groups that pass the noise filter (group.length < 2 means continue). -/
def survivingGroups (frames : List RawFrameAnalysis) :
    List (String × List RawTextDetection) :=
  (detectionGroups frames).filter (fun p => 2 ≤ p.2.length)

/-- PipelineOrchestrator.aggregateDetections, with uuidv4 modelled by the
supply uuid applied to the running instance count. -/
def aggregateDetections (uuid : ℕ → String) (frames : List RawFrameAnalysis)
    (fps : ℚ) : List ConsolidatedTextInstance :=
  (survivingGroups frames).enum.map (fun p => buildInstance frames fps (uuid p.1) p.2.2)

/-- Padding or margin record of LayoutLogic. -/
structure Pad where
  top : ℚ
  right : ℚ
  bottom : ℚ
  left : ℚ
deriving DecidableEq, Repr

/-- Layout enrichment record (types/pipeline.ts LayoutLogic); the anchor and
alignment string unions are modelled as strings. -/
structure LayoutLogic where
  anchor : String
  alignment : String
  padding : Pad
  margin : Pad
  zIndex : ℚ
deriving DecidableEq, Repr

/-- The default layout the orchestrator substitutes for a missing id. -/
def defaultLayout : LayoutLogic :=
  { anchor := "center", alignment := "center", zIndex := 1,
    padding := ⟨0, 0, 0, 0⟩, margin := ⟨0, 0, 0, 0⟩ }

/-- Narrative role of a text segment (types/pipeline.ts TextRole). -/
inductive TextRole where
  | HOOK
  | BODY
  | CTA
deriving DecidableEq, Repr

/-- A consolidated instance extended with role and layout enrichment. -/
structure EnrichedOverlay extends ConsolidatedTextInstance where
  role : TextRole
  layout : LayoutLogic
deriving DecidableEq, Repr

/-- Resolved font pair of the design system. -/
structure FontPair where
  primary : String
  secondary : String
deriving DecidableEq, Repr

/-- Resolved color tokens of the design system. -/
structure ColorSet where
  primary : String
  secondary : String
  accent : String
  background : String
  text : String
deriving DecidableEq, Repr

/-- Resolved spacing tokens of the design system. -/
structure SpacingSpec where
  base : ℚ
  scale : List ℚ
deriving DecidableEq, Repr

/-- Resolved timing tokens of the design system. -/
structure TimingSpec where
  avgDurationPerWord : ℚ
  minDuration : ℚ
deriving DecidableEq, Repr

/-- The fully-defaulted design system the orchestrator assembles. -/
structure DesignSystem where
  fonts : FontPair
  colors : ColorSet
  spacing : SpacingSpec
  timing : TimingSpec
deriving DecidableEq, Repr

/-- Raw, possibly-partial font fields of the design-system collaborator. -/
structure RawFonts where
  primary : Option String
  secondary : Option String
deriving DecidableEq, Repr

/-- Raw, possibly-partial color fields. -/
structure RawColors where
  primary : Option String
  secondary : Option String
  accent : Option String
  background : Option String
  text : Option String
deriving DecidableEq, Repr

/-- Raw, possibly-partial spacing fields. -/
structure RawSpacing where
  base : Option ℚ
  scale : Option (List ℚ)
deriving DecidableEq, Repr

/-- Raw, possibly-partial timing fields. -/
structure RawTiming where
  avgDurationPerWord : Option ℚ
  minDuration : Option ℚ
deriving DecidableEq, Repr

/-- Raw design system as returned by the collaborator; every level may be
absent, mirroring the optional-chaining accesses in the orchestrator. -/
structure RawDesignSystem where
  fonts : Option RawFonts
  colors : Option RawColors
  spacing : Option RawSpacing
  timing : Option RawTiming
deriving DecidableEq, Repr

/-- JS defaulting on the string or-operator: an absent or empty string is
falsy and yields the default. -/
def jsOrString (v : Option String) (d : String) : String :=
  match v with
  | none => d
  | some s => if s = "" then d else s

/-- JS defaulting on the numeric or-operator: absent or zero yields the
default. -/
def jsOrQ (v : Option ℚ) (d : ℚ) : ℚ :=
  match v with
  | none => d
  | some q => if q = 0 then d else q

/-- JS defaulting on an array field: every array is truthy, so only an
absent field yields the default. -/
def jsOrScale (v : Option (List ℚ)) (d : List ℚ) : List ℚ :=
  match v with
  | none => d
  | some l => l

/-- Truth of the JS falsy test on an optional string. -/
def jsFalsyString (v : Option String) : Bool :=
  match v with
  | none => true
  | some s => s = ""

/-- The rawDesignSystem question-mark chain fonts-primary. -/
def rawPrimaryFont (raw : Option RawDesignSystem) : Option String :=
  (raw.bind (·.fonts)).bind (·.primary)

/-- The defaulted design system assembled by processVideo. -/
def buildDesignSystem (raw : Option RawDesignSystem) : DesignSystem :=
  { fonts :=
      { primary := jsOrString (rawPrimaryFont raw) ("Inter"),
        secondary := jsOrString ((raw.bind (·.fonts)).bind (·.secondary)) ("Inter") },
    colors :=
      { primary := jsOrString ((raw.bind (·.colors)).bind (·.primary)) ("#ffffff"),
        secondary := jsOrString ((raw.bind (·.colors)).bind (·.secondary)) ("#000000"),
        accent := jsOrString ((raw.bind (·.colors)).bind (·.accent)) ("#FF0000"),
        background := jsOrString ((raw.bind (·.colors)).bind (·.background)) ("#000000"),
        text := jsOrString ((raw.bind (·.colors)).bind (·.text)) ("#ffffff") },
    spacing :=
      { base := jsOrQ ((raw.bind (·.spacing)).bind (·.base)) 4,
        scale := jsOrScale ((raw.bind (·.spacing)).bind (·.scale)) [4, 8, 16, 24, 32] },
    timing :=
      { avgDurationPerWord := jsOrQ ((raw.bind (·.timing)).bind (·.avgDurationPerWord)) 0.4,
        minDuration := jsOrQ ((raw.bind (·.timing)).bind (·.minDuration)) 1.0 } }

/-- The warnings list assembled by processVideo: one entry when the primary
font is missing. -/
def pipelineWarnings (raw : Option RawDesignSystem) : List String :=
  if jsFalsyString (rawPrimaryFont raw) then
    ["Could not detect font, using default \x27Inter\x27"]
  else []

/-- One variation set of the final result. -/
structure VariationSet where
  segmentId : String
  variations : List String
deriving DecidableEq, Repr

/-- The final bundle returned by processVideo. -/
structure PipelineResult where
  projectId : String
  overlays : List EnrichedOverlay
  designSystem : DesignSystem
  variations : List VariationSet
  warnings : List String
deriving DecidableEq, Repr

/-- The fixed results of the external collaborators for one run: the keyed
layout and role maps, the raw design system, and the variation map as an
insertion-ordered entry list. -/
structure Collaborators where
  layoutMap : String → Option LayoutLogic
  roleMap : String → Option TextRole
  rawDesignSystem : Option RawDesignSystem
  variationMap : List (String × List String)

/-- Overlay enrichment of processVideo: spread the instance and default a
missing role to BODY and a missing layout to the centered default. -/
def enrichOverlay (collab : Collaborators) (c : ConsolidatedTextInstance) :
    EnrichedOverlay :=
  { toConsolidatedTextInstance := c,
    role := (collab.roleMap c.id).getD .BODY,
    layout := (collab.layoutMap c.id).getD defaultLayout }

/-- PipelineOrchestrator.processVideo with the collaborator results held
fixed: aggregate, enrich, assemble design system, variations and warnings.
The uuid supply is consumed first by the aggregation (one id per instance,
in creation order) and then once more for the projectId. -/
def processVideo (uuid : ℕ → String) (collab : Collaborators)
    (rawAnalysis : List RawFrameAnalysis) (fps : ℚ) : PipelineResult :=
  { projectId := uuid (aggregateDetections uuid rawAnalysis fps).length,
    overlays := (aggregateDetections uuid rawAnalysis fps).map (enrichOverlay collab),
    designSystem := buildDesignSystem collab.rawDesignSystem,
    variations := collab.variationMap.map (fun p => { segmentId := p.1, variations := p.2 }),
    warnings := pipelineWarnings collab.rawDesignSystem }

/-! ### Runtime-shape variant of the aggregation

The TypeScript interface declares boundingBox as required, but the data
comes from an external OCR collaborator, so a runtime record may miss the
field. This variant embeds the same aggregation code over detections whose
boundingBox may be absent; reading an absent field is the JS TypeError,
modelled by Except.error. -/

/-- A raw detection as it may actually arrive at runtime: the boundingBox
field may be missing. -/
structure RawTextDetectionOpt where
  text : String
  frameIndex : ℕ
  boundingBox : Option BoundingBox
  confidence : ℚ
  language : Option String
deriving DecidableEq, Repr

/-- Per-frame bundle over runtime-shaped detections. -/
structure RawFrameAnalysisOpt where
  frameIndex : ℕ
  timestamp : ℚ
  detections : List RawTextDetectionOpt
  visuals : Visuals
deriving DecidableEq, Repr

/-- Reading d.boundingBox.x on a runtime record: absent means the JS
TypeError. -/
def getBoundingBox (d : RawTextDetectionOpt) : Except String BoundingBox :=
  match d.boundingBox with
  | some b => Except.ok b
  | none => Except.error ("TypeError: Cannot read properties of undefined")

/-- Normalized key of a runtime-shaped detection. -/
def detectionKeyOpt (d : RawTextDetectionOpt) : String :=
  normalizeText d.text

/-- Stable sort of runtime-shaped detections by frameIndex. -/
def sortByFrameOpt (l : List RawTextDetectionOpt) : List RawTextDetectionOpt :=
  sortStable (fun a b => a.frameIndex ≤ b.frameIndex) l

/-- Error-propagating map, modelling a JS loop whose body may throw: the
first thrown error aborts the whole traversal. -/
def mapExcept {α β : Type} (f : α → Except String β) :
    List α → Except String (List β)
  | [] => Except.ok []
  | a :: l => do
    let b ← f a
    let bs ← mapExcept f l
    pure (b :: bs)

/-- calculateMotionPath over runtime-shaped detections: building a keyframe
reads the boundingBox of each detection. -/
def calculateMotionPathOpt (detections : List RawTextDetectionOpt)
    (fps baseStartTime : ℚ) : Except String MotionPath :=
  if detections.length < 2 then
    Except.ok { keyframes := [], type := .STATIC, variance := 0 }
  else do
    let raw ← mapExcept
      (fun d => do
        let bb ← getBoundingBox d
        pure ({ time := (d.frameIndex : ℚ) / fps - baseStartTime,
                x := bb.x, y := bb.y } : MotionKeyframe))
      detections
    let kfs := sortByTime raw
    pure { keyframes := kfs,
           type := if 2 < keyframeTotalVariance kfs then .LINEAR else .STATIC,
           variance := keyframeTotalVariance kfs }

/-- The best-confidence reduce over runtime-shaped detections. -/
def bestDetectionOpt (d0 : RawTextDetectionOpt) (rest : List RawTextDetectionOpt) :
    RawTextDetectionOpt :=
  rest.foldl
    (fun prev current =>
      if prev.confidence < current.confidence then current else prev)
    d0

/-- Instance construction over runtime-shaped detections; the motion path
and the box average both read every member's boundingBox. -/
def buildInstanceOpt (frames : List RawFrameAnalysisOpt) (fps : ℚ) (id : String)
    (rawGroup : List RawTextDetectionOpt) : Except String ConsolidatedTextInstance :=
  match sortByFrameOpt rawGroup with
  | [] =>
    Except.ok
      { id := id, text := "", startFrame := 0, endFrame := 0, startTime := 0,
        endTime := 0, duration := 1, boundingBox := ⟨0, 0, 0, 0⟩,
        motionPath := ⟨[], .STATIC, 0⟩, visuals := emptyVisuals,
        detectionConfidence := 0 }
  | d0 :: rest => do
    let startFrame := d0.frameIndex
    let endFrame := (List.getLastD rest d0).frameIndex
    let startTime := (startFrame : ℚ) / fps
    let endTime := (endFrame : ℚ) / fps
    let duration := endTime - startTime
    let motionPath ← calculateMotionPathOpt (d0 :: rest) fps startTime
    let boxes ← mapExcept getBoundingBox (d0 :: rest)
    let best := bestDetectionOpt d0 rest
    pure
      { id := id,
        text := best.text,
        startFrame := startFrame,
        endFrame := endFrame,
        startTime := startTime,
        endTime := endTime,
        duration := if duration = 0 then 1 else duration,
        boundingBox := averageBoundingBox boxes,
        motionPath := motionPath,
        visuals :=
          ((frames.find? (fun f => f.frameIndex == best.frameIndex)).map
            (·.visuals)).getD emptyVisuals,
        detectionConfidence := best.confidence }

/-- The grouping map over runtime-shaped detections. -/
def detectionGroupsOpt (frames : List RawFrameAnalysisOpt) :
    List (String × List RawTextDetectionOpt) :=
  groupByNormalizedText detectionKeyOpt (frames.flatMap (·.detections))

/-- Surviving groups over runtime-shaped detections. -/
def survivingGroupsOpt (frames : List RawFrameAnalysisOpt) :
    List (String × List RawTextDetectionOpt) :=
  (detectionGroupsOpt frames).filter (fun p => 2 ≤ p.2.length)

/-- aggregateDetections over runtime-shaped detections: the loop body may
throw while reading an absent boundingBox, aborting the batch. -/
def aggregateDetectionsOpt (uuid : ℕ → String) (frames : List RawFrameAnalysisOpt)
    (fps : ℚ) : Except String (List ConsolidatedTextInstance) :=
  mapExcept (fun p => buildInstanceOpt frames fps (uuid p.1) p.2.2)
    (survivingGroupsOpt frames).enum

/-! ### Motion tracker easing (src/lib/services/motion-tracker.ts)

The tracker computes Euclidean per-step velocities with Math.sqrt, so this
part of the embedding lives over the reals; the branch conditions are real
comparisons, decided classically. -/

/-- UI-facing easing enumeration of the motion tracker. -/
inductive Easing where
  | linear
  | easeIn
  | easeOut
  | easeInOut
deriving DecidableEq, Repr

/-- Keyframe of the motion tracker, over the reals. -/
structure TrackKeyframe where
  time : ℝ
  x : ℝ
  y : ℝ

/-- Left fold sum over the reals, as the JS reduce((a, b) => a + b, 0). -/
def listSumR (l : List ℝ) : ℝ :=
  l.foldl (· + ·) 0

/-- Per-step velocities of determineEasing: for each consecutive keyframe
pair, Euclidean distance over time delta. -/
noncomputable def trackVelocities (kfs : List TrackKeyframe) : List ℝ :=
  (kfs.zip kfs.tail).map
    (fun p =>
      Real.sqrt ((p.2.x - p.1.x) ^ 2 + (p.2.y - p.1.y) ^ 2) / (p.2.time - p.1.time))

/-- Average of the first floor(n / 2) velocities. -/
noncomputable def firstHalfAvg (vels : List ℝ) : ℝ :=
  listSumR (vels.take (vels.length / 2)) / (vels.length / 2 : ℕ)

/-- Average of the remaining velocities. -/
noncomputable def secondHalfAvg (vels : List ℝ) : ℝ :=
  listSumR (vels.drop (vels.length / 2)) / (vels.length - vels.length / 2 : ℕ)

open Classical in
/-- MotionTrackerService.determineEasing: below 3 keyframes default to
linear; otherwise compare the two half-averages of the velocity profile. -/
noncomputable def determineEasing (keyframes : List TrackKeyframe) : Easing :=
  if keyframes.length < 3 then .linear
  else
    if firstHalfAvg (trackVelocities keyframes) <
        secondHalfAvg (trackVelocities keyframes) * 0.7 then .easeIn
    else if secondHalfAvg (trackVelocities keyframes) <
        firstHalfAvg (trackVelocities keyframes) * 0.7 then .easeOut
    else if |firstHalfAvg (trackVelocities keyframes) -
        secondHalfAvg (trackVelocities keyframes)| <
        firstHalfAvg (trackVelocities keyframes) * 0.3 then .linear
    else .easeInOut

/-! ### Supporting lemmas -/

theorem mem_insertSorted {α : Type} (le : α → α → Prop) [DecidableRel le]
    (d x : α) : ∀ l : List α, x ∈ insertSorted le d l ↔ x = d ∨ x ∈ l := by
  intro l
  induction l with
  | nil => simp [insertSorted]
  | cons a t ih =>
    by_cases h : le d a
    · simp [insertSorted, h]
    · simp only [insertSorted, if_neg h, List.mem_cons, ih]
      tauto

theorem mem_sortStable {α : Type} (le : α → α → Prop) [DecidableRel le]
    (x : α) : ∀ l : List α, x ∈ sortStable le l ↔ x ∈ l := by
  intro l
  induction l with
  | nil => simp [sortStable]
  | cons a t ih =>
    show x ∈ insertSorted le a (sortStable le t) ↔ _
    rw [mem_insertSorted]
    simp only [List.mem_cons, ih]

theorem length_insertSorted {α : Type} (le : α → α → Prop) [DecidableRel le]
    (d : α) : ∀ l : List α, (insertSorted le d l).length = l.length + 1 := by
  intro l
  induction l with
  | nil => simp [insertSorted]
  | cons a t ih =>
    by_cases h : le d a
    · simp [insertSorted, h]
    · simp [insertSorted, h, ih]

theorem length_sortStable {α : Type} (le : α → α → Prop) [DecidableRel le] :
    ∀ l : List α, (sortStable le l).length = l.length := by
  intro l
  induction l with
  | nil => rfl
  | cons a t ih =>
    show (insertSorted le a (sortStable le t)).length = _
    rw [length_insertSorted, ih, List.length_cons]

theorem mem_of_mem_enumFrom {α : Type} :
    ∀ (l : List α) (n : ℕ) (p : ℕ × α), p ∈ l.enumFrom n → p.2 ∈ l := by
  intro l
  induction l with
  | nil => simp [List.enumFrom]
  | cons a t ih =>
    intro n p hp
    rw [List.enumFrom] at hp
    rcases List.mem_cons.1 hp with h | h
    · subst h; exact List.mem_cons_self _ _
    · exact List.mem_cons_of_mem _ (ih (n + 1) p h)

theorem mem_of_mem_enum {α : Type} (l : List α) (p : ℕ × α)
    (hp : p ∈ l.enum) : p.2 ∈ l :=
  mem_of_mem_enumFrom l 0 p hp

theorem listSum_eq_sum : ∀ (l : List ℚ) (a : ℚ), l.foldl (· + ·) a = a + l.sum := by
  intro l
  induction l with
  | nil => simp
  | cons x t ih =>
    intro a
    simp only [List.foldl_cons, List.sum_cons, ih]
    ring

theorem listSum_sum (l : List ℚ) : listSum l = l.sum := by
  rw [listSum, listSum_eq_sum]; ring

theorem foldl_add_map (f : ℚ → ℚ) :
    ∀ (l : List ℚ) (a : ℚ), l.foldl (fun s n => s + f n) a = a + (l.map f).sum := by
  intro l
  induction l with
  | nil => simp
  | cons x t ih =>
    intro a
    simp only [List.foldl_cons, List.map_cons, List.sum_cons, ih]
    ring

theorem calculateVariance_eq (values : List ℚ) (h : values ≠ []) :
    calculateVariance values =
      ((values.map (fun v => (v - values.sum / values.length) ^ 2)).sum) / values.length := by
  have hlen : values.length ≠ 0 := by
    simpa [List.length_eq_zero] using h
  rw [calculateVariance, if_neg hlen, foldl_add_map, listSum_sum, zero_add]

theorem bestDetection_cons (d0 r : RawTextDetection) (t : List RawTextDetection) :
    bestDetection d0 (r :: t) =
      bestDetection (if d0.confidence < r.confidence then r else d0) t := rfl

theorem bestDetection_mem :
    ∀ (rest : List RawTextDetection) (d0 : RawTextDetection),
      bestDetection d0 rest ∈ d0 :: rest := by
  intro rest
  induction rest with
  | nil => intro d0; simp [bestDetection]
  | cons r t ih =>
    intro d0
    rw [bestDetection_cons]
    by_cases h : d0.confidence < r.confidence
    · rw [if_pos h]
      rcases List.mem_cons.1 (ih r) with h2 | h2
      · rw [h2]; simp
      · simp [h2]
    · rw [if_neg h]
      rcases List.mem_cons.1 (ih d0) with h2 | h2
      · rw [h2]; simp
      · simp [h2]

theorem bestDetection_init_le :
    ∀ (rest : List RawTextDetection) (d0 : RawTextDetection),
      d0.confidence ≤ (bestDetection d0 rest).confidence := by
  intro rest
  induction rest with
  | nil => intro d0; simp [bestDetection]
  | cons r t ih =>
    intro d0
    rw [bestDetection_cons]
    by_cases h : d0.confidence < r.confidence
    · rw [if_pos h]
      exact le_trans (le_of_lt h) (ih r)
    · rw [if_neg h]
      exact ih d0

theorem bestDetection_max :
    ∀ (rest : List RawTextDetection) (d0 : RawTextDetection) (x : RawTextDetection),
      x ∈ d0 :: rest → x.confidence ≤ (bestDetection d0 rest).confidence := by
  intro rest
  induction rest with
  | nil =>
    intro d0 x hx
    simp at hx
    simp [bestDetection, hx]
  | cons r t ih =>
    intro d0 x hx
    rw [bestDetection_cons]
    by_cases h : d0.confidence < r.confidence
    · rw [if_pos h]
      rcases List.mem_cons.1 hx with h1 | h1
      · subst h1
        exact le_trans (le_of_lt h) (bestDetection_init_le t r)
      · rcases List.mem_cons.1 h1 with h2 | h2
        · subst h2
          exact bestDetection_init_le t x
        · exact ih r x (List.mem_cons_of_mem _ h2)
    · rw [if_neg h]
      rcases List.mem_cons.1 hx with h1 | h1
      · subst h1
        exact bestDetection_init_le t x
      · rcases List.mem_cons.1 h1 with h2 | h2
        · subst h2
          exact le_trans (not_lt.1 h) (bestDetection_init_le t d0)
        · exact ih d0 x (List.mem_cons_of_mem _ h2)

theorem addToGroup_fst {α : Type} (key : String) (d : α) :
    ∀ acc : List (String × List α),
      (addToGroup key d acc).map Prod.fst =
        if key ∈ acc.map Prod.fst then acc.map Prod.fst
        else acc.map Prod.fst ++ [key] := by
  intro acc
  induction acc with
  | nil => simp [addToGroup]
  | cons q rest ih =>
    rcases q with ⟨k, g⟩
    by_cases h : k = key
    · subst h
      simp [addToGroup]
    · have hne : ¬key = k := fun hc => h hc.symm
      simp only [addToGroup, if_neg h, List.map_cons, List.mem_cons, hne, false_or, ih]
      by_cases hmem : key ∈ rest.map Prod.fst
      · simp [hmem]
      · simp [hmem]

/-- The accumulator invariant of the grouping loop: keys are distinct and
non-empty, every group is exactly the in-order filter of the detections seen
so far by its key, and every non-empty key seen so far owns a group. -/
def GroupInv {α : Type} (keyOf : α → String) (seen : List α)
    (acc : List (String × List α)) : Prop :=
  (acc.map Prod.fst).Nodup
  ∧ (∀ p ∈ acc, p.1 ≠ "" ∧ p.2 = seen.filter (fun x => keyOf x == p.1))
  ∧ (∀ x ∈ seen, keyOf x ≠ "" → keyOf x ∈ acc.map Prod.fst)

theorem addToGroup_entries {α : Type} (keyOf : α → String) (key : String) (d : α)
    (hd : keyOf d = key) (hkey : key ≠ "") :
    ∀ (acc : List (String × List α)) (seen : List α),
      (acc.map Prod.fst).Nodup →
      (∀ p ∈ acc, p.1 ≠ "" ∧ p.2 = seen.filter (fun x => keyOf x == p.1)) →
      (key ∉ acc.map Prod.fst → seen.filter (fun x => keyOf x == key) = []) →
      ∀ p ∈ addToGroup key d acc,
        p.1 ≠ "" ∧ p.2 = (seen ++ [d]).filter (fun x => keyOf x == p.1) := by
  intro acc
  induction acc with
  | nil =>
    intro seen _ _ hmiss p hp
    simp only [addToGroup, List.mem_singleton] at hp
    subst hp
    refine ⟨hkey, ?_⟩
    rw [List.filter_append, hmiss (by simp)]
    simp [hd]
  | cons q rest ih =>
    rcases q with ⟨k, g⟩
    intro seen hnodup hfilters hmiss p hp
    have hnodup2 : k ∉ rest.map Prod.fst ∧ (rest.map Prod.fst).Nodup := by
      rw [List.map_cons] at hnodup
      exact List.nodup_cons.1 hnodup
    by_cases h : k = key
    · subst h
      rw [addToGroup, if_pos rfl] at hp
      rcases List.mem_cons.1 hp with hp1 | hp1
      · subst hp1
        obtain ⟨hk1, hk2⟩ := hfilters (k, g) (List.mem_cons_self _ _)
        refine ⟨hk1, ?_⟩
        rw [List.filter_append]
        have hbeq : (keyOf d == k) = true := by simp [hd]
        simp only [List.filter_cons, List.filter_nil, hbeq, if_true]
        rw [← hk2]
      · obtain ⟨hp2, hp3⟩ := hfilters p (List.mem_cons_of_mem _ hp1)
        refine ⟨hp2, ?_⟩
        rw [List.filter_append]
        have hp1k : p.1 ≠ k := by
          intro hc
          exact hnodup2.1 (hc ▸ List.mem_map_of_mem Prod.fst hp1)
        have hbeq : (keyOf d == p.1) = false := by
          simp [hd]
          exact fun hc => hp1k hc.symm
        simp only [List.filter_cons, List.filter_nil, hbeq, Bool.false_eq_true,
          if_false, List.append_nil]
        exact hp3
    · rw [addToGroup, if_neg h] at hp
      rcases List.mem_cons.1 hp with hp1 | hp1
      · subst hp1
        obtain ⟨hk1, hk2⟩ := hfilters (k, g) (List.mem_cons_self _ _)
        refine ⟨hk1, ?_⟩
        rw [List.filter_append]
        have hbeq : (keyOf d == k) = false := by
          simp [hd]
          exact fun hc => h hc.symm
        simp only [List.filter_cons, List.filter_nil, hbeq, Bool.false_eq_true,
          if_false, List.append_nil]
        exact hk2
      · have hfilters2 : ∀ q ∈ rest, q.1 ≠ "" ∧ q.2 = seen.filter (fun x => keyOf x == q.1) :=
          fun q hq => hfilters q (List.mem_cons_of_mem _ hq)
        have hmiss2 : key ∉ rest.map Prod.fst → seen.filter (fun x => keyOf x == key) = [] := by
          intro hnot
          apply hmiss
          rw [List.map_cons]
          intro hc
          rcases List.mem_cons.1 hc with hc1 | hc1
          · exact h hc1.symm
          · exact hnot hc1
        exact ih seen hnodup2.2 hfilters2 hmiss2 p hp1

theorem groupInv_holds {α : Type} (keyOf : α → String) :
    ∀ ds : List α, GroupInv keyOf ds (groupByNormalizedText keyOf ds) := by
  intro ds
  induction ds using List.reverseRecOn with
  | nil =>
    refine ⟨by simp [groupByNormalizedText], ?_, ?_⟩
    · intro p hp
      simp [groupByNormalizedText] at hp
    · intro x hx
      simp at hx
  | append_singleton ds d ih =>
    obtain ⟨hnodup, hfilters, hcomplete⟩ := ih
    have hstep : groupByNormalizedText keyOf (ds ++ [d]) =
        groupStep keyOf (groupByNormalizedText keyOf ds) d := by
      rw [groupByNormalizedText, groupByNormalizedText, List.foldl_append]
      rfl
    by_cases hk : keyOf d = ""
    · rw [GroupInv, hstep, groupStep, if_pos hk]
      refine ⟨hnodup, ?_, ?_⟩
      · intro p hp
        obtain ⟨h1, h2⟩ := hfilters p hp
        refine ⟨h1, ?_⟩
        rw [List.filter_append]
        have hbeq : (keyOf d == p.1) = false := by
          rw [hk]
          simp
          exact fun hc => h1 hc.symm
        simp only [List.filter_cons, List.filter_nil, hbeq, Bool.false_eq_true,
          if_false, List.append_nil]
        exact h2
      · intro x hx hxk
        rcases List.mem_append.1 hx with hx1 | hx1
        · exact hcomplete x hx1 hxk
        · rw [List.mem_singleton.1 hx1] at hxk
          exact absurd hk hxk
    · rw [GroupInv, hstep, groupStep, if_neg hk]
      have hfst := addToGroup_fst (keyOf d) d (groupByNormalizedText keyOf ds)
      have hmiss : keyOf d ∉ (groupByNormalizedText keyOf ds).map Prod.fst →
          ds.filter (fun x => keyOf x == keyOf d) = [] := by
        intro hnot
        rw [List.filter_eq_nil_iff]
        intro x hx hbeq
        have hxd : keyOf x = keyOf d := by simpa using hbeq
        exact hnot (hxd ▸ hcomplete x hx (by rw [hxd]; exact hk))
      refine ⟨?_, ?_, ?_⟩
      · rw [hfst]
        by_cases hmem : keyOf d ∈ (groupByNormalizedText keyOf ds).map Prod.fst
        · rw [if_pos hmem]
          exact hnodup
        · rw [if_neg hmem]
          rw [List.nodup_append]
          refine ⟨hnodup, List.nodup_singleton _, ?_⟩
          intro a ha
          simp only [List.mem_singleton]
          intro hc
          exact hmem (hc ▸ ha)
      · exact addToGroup_entries keyOf (keyOf d) d rfl hk _ ds hnodup hfilters hmiss
      · intro x hx hxk
        rcases List.mem_append.1 hx with hx1 | hx1
        · have hold := hcomplete x hx1 hxk
          rw [hfst]
          by_cases hmem : keyOf d ∈ (groupByNormalizedText keyOf ds).map Prod.fst
          · rw [if_pos hmem]
            exact hold
          · rw [if_neg hmem]
            exact List.mem_append_left _ hold
        · rw [List.mem_singleton.1 hx1]
          rw [hfst]
          by_cases hmem : keyOf d ∈ (groupByNormalizedText keyOf ds).map Prod.fst
          · rw [if_pos hmem]
            exact hmem
          · rw [if_neg hmem]
            exact List.mem_append_right _ (List.mem_singleton_self _)

theorem detectionGroups_filter (frames : List RawFrameAnalysis) :
    ∀ k g, (k, g) ∈ detectionGroups frames →
      k ≠ "" ∧ g = (allDetections frames).filter (fun d => normalizeText d.text == k) := by
  intro k g h
  have h2 := (groupInv_holds detectionKey (allDetections frames)).2.1 (k, g) h
  simpa [detectionKey] using h2

theorem mem_survivingGroups (frames : List RawFrameAnalysis) :
    ∀ p, p ∈ survivingGroups frames → p ∈ detectionGroups frames ∧ 2 ≤ p.2.length := by
  intro p hp
  rw [survivingGroups] at hp
  have h2 := List.mem_filter.1 hp
  exact ⟨h2.1, by simpa using h2.2⟩

theorem mem_aggregateDetections (uuid : ℕ → String) (frames : List RawFrameAnalysis)
    (fps : ℚ) (inst : ConsolidatedTextInstance)
    (h : inst ∈ aggregateDetections uuid frames fps) :
    ∃ i k g, (k, g) ∈ detectionGroups frames ∧ 2 ≤ g.length ∧
      inst = buildInstance frames fps (uuid i) g := by
  rw [aggregateDetections] at h
  rcases List.mem_map.1 h with ⟨p, hp, hbuild⟩
  have hmem : p.2 ∈ survivingGroups frames := mem_of_mem_enum _ p hp
  obtain ⟨hg, hlen⟩ := mem_survivingGroups frames p.2 hmem
  exact ⟨p.1, p.2.1, p.2.2, hg, hlen, hbuild.symm⟩

theorem sortByFrame_length (g : List RawTextDetection) :
    (sortByFrame g).length = g.length :=
  length_sortStable _ g

theorem sortByFrame_ne_nil {g : List RawTextDetection} (h : g ≠ []) :
    sortByFrame g ≠ [] := by
  intro hc
  apply h
  have hlen := congrArg List.length hc
  rw [sortByFrame_length] at hlen
  exact List.length_eq_zero.1 hlen

theorem mem_sortByFrame (x : RawTextDetection) (g : List RawTextDetection) :
    x ∈ sortByFrame g ↔ x ∈ g :=
  mem_sortStable _ x g

theorem buildInstance_cons (frames : List RawFrameAnalysis) (fps : ℚ) (id : String)
    (g : List RawTextDetection) (d0 : RawTextDetection) (rest : List RawTextDetection)
    (hs : sortByFrame g = d0 :: rest) :
    buildInstance frames fps id g =
      { id := id,
        text := (bestDetection d0 rest).text,
        startFrame := d0.frameIndex,
        endFrame := (List.getLastD rest d0).frameIndex,
        startTime := (d0.frameIndex : ℚ) / fps,
        endTime := ((List.getLastD rest d0).frameIndex : ℚ) / fps,
        duration :=
          if ((List.getLastD rest d0).frameIndex : ℚ) / fps - (d0.frameIndex : ℚ) / fps = 0
          then 1
          else ((List.getLastD rest d0).frameIndex : ℚ) / fps - (d0.frameIndex : ℚ) / fps,
        boundingBox := averageBoundingBox ((d0 :: rest).map (·.boundingBox)),
        motionPath := calculateMotionPath (d0 :: rest) fps ((d0.frameIndex : ℚ) / fps),
        visuals := findRepresentativeVisuals frames (bestDetection d0 rest),
        detectionConfidence := (bestDetection d0 rest).confidence } := by
  rw [buildInstance, hs]

theorem instance_group_spec (uuid : ℕ → String) (frames : List RawFrameAnalysis)
    (fps : ℚ) (inst : ConsolidatedTextInstance)
    (h : inst ∈ aggregateDetections uuid frames fps) :
    ∃ d, d ∈ (allDetections frames).filter
          (fun x => normalizeText x.text == normalizeText inst.text)
      ∧ inst.text = d.text
      ∧ inst.detectionConfidence = d.confidence
      ∧ (∀ x ∈ (allDetections frames).filter
            (fun x => normalizeText x.text == normalizeText inst.text),
          x.confidence ≤ d.confidence)
      ∧ 2 ≤ ((allDetections frames).filter
            (fun x => normalizeText x.text == normalizeText inst.text)).length
      ∧ normalizeText inst.text ≠ "" := by
  obtain ⟨i, k, g, hg, hlen, hbuild⟩ := mem_aggregateDetections uuid frames fps inst h
  obtain ⟨hk, hgf⟩ := detectionGroups_filter frames k g hg
  have hgne : g ≠ [] := by
    intro hc
    rw [hc] at hlen
    simp at hlen
  cases hs : sortByFrame g with
  | nil => exact absurd hs (sortByFrame_ne_nil hgne)
  | cons d0 rest =>
    have hbc := buildInstance_cons frames fps (uuid i) g d0 rest hs
    have htext : inst.text = (bestDetection d0 rest).text := by
      rw [hbuild, hbc]
    have hconf : inst.detectionConfidence = (bestDetection d0 rest).confidence := by
      rw [hbuild, hbc]
    have hbestg : bestDetection d0 rest ∈ g := by
      rw [← mem_sortByFrame, hs]
      exact bestDetection_mem rest d0
    have hbkey : normalizeText (bestDetection d0 rest).text = k := by
      have hmemf := hgf ▸ hbestg
      have h2 := List.mem_filter.1 hmemf
      simpa using h2.2
    have hinstkey : normalizeText inst.text = k := by
      rw [htext, hbkey]
    have hfiltg : (allDetections frames).filter
        (fun x => normalizeText x.text == normalizeText inst.text) = g := by
      rw [hinstkey, ← hgf]
    refine ⟨bestDetection d0 rest, ?_, htext, hconf, ?_, ?_, ?_⟩
    · rw [hfiltg]
      exact hbestg
    · intro x hx
      rw [hfiltg] at hx
      refine bestDetection_max rest d0 x ?_
      rw [← hs]
      exact (mem_sortByFrame x g).2 hx
    · rw [hfiltg]
      exact hlen
    · rw [hinstkey]
      exact hk

/-- Population variance as the spec words it, written independently of the
code's fold: mean-centered squares summed and divided by the count. Used to
compare the code's calculateVariance against the spec. -/
def specPopulationVariance (values : List ℚ) : ℚ :=
  ((values.map (fun v => (v - values.sum / values.length) ^ 2)).sum) / values.length

theorem motionKeyframes_length (detections : List RawTextDetection) (fps t : ℚ) :
    (motionKeyframes detections fps t).length = detections.length := by
  rw [motionKeyframes, sortByTime, length_sortStable, List.length_map]

/-- C4: for every group of at least 2 detections, calculateMotionPath
returns a path whose variance is the population variance of the keyframe x
values plus that of the y values, of type STATIC when the total is at most
the threshold 2 and LINEAR otherwise, with no secondary test on this path. -/
theorem calculateMotionPath_variance_classification
    (detections : List RawTextDetection) (fps t : ℚ) (h : 2 ≤ detections.length) :
    (calculateMotionPath detections fps t).variance =
        specPopulationVariance ((calculateMotionPath detections fps t).keyframes.map (·.x))
          + specPopulationVariance ((calculateMotionPath detections fps t).keyframes.map (·.y))
      ∧ ((calculateMotionPath detections fps t).variance ≤ 2 →
          (calculateMotionPath detections fps t).type = MotionType.STATIC)
      ∧ (2 < (calculateMotionPath detections fps t).variance →
          (calculateMotionPath detections fps t).type = MotionType.LINEAR) := by
  have hnl : ¬ detections.length < 2 := not_lt.2 h
  have hlen : (motionKeyframes detections fps t).length = detections.length :=
    motionKeyframes_length detections fps t
  have hxne : (motionKeyframes detections fps t).map (·.x) ≠ [] := by
    intro hc
    have h2 := congrArg List.length hc
    rw [List.length_map, hlen, List.length_nil] at h2
    omega
  have hyne : (motionKeyframes detections fps t).map (·.y) ≠ [] := by
    intro hc
    have h2 := congrArg List.length hc
    rw [List.length_map, hlen, List.length_nil] at h2
    omega
  rw [calculateMotionPath, if_neg hnl]
  refine ⟨?_, ?_, ?_⟩
  · show keyframeTotalVariance (motionKeyframes detections fps t) = _
    rw [keyframeTotalVariance, calculateVariance_eq _ hxne, calculateVariance_eq _ hyne]
    rfl
  · intro hle
    show (if 2 < keyframeTotalVariance (motionKeyframes detections fps t)
        then MotionType.LINEAR else MotionType.STATIC) = MotionType.STATIC
    exact if_neg (not_lt.2 hle)
  · intro hgt
    show (if 2 < keyframeTotalVariance (motionKeyframes detections fps t)
        then MotionType.LINEAR else MotionType.STATIC) = MotionType.LINEAR
    exact if_pos hgt

theorem sumBoundingBox_spec :
    ∀ (boxes : List BoundingBox) (acc : BoundingBox),
      boxes.foldl
        (fun acc box =>
          { x := acc.x + box.x,
            y := acc.y + box.y,
            width := acc.width + box.width,
            height := acc.height + box.height })
        acc =
      { x := acc.x + (boxes.map (·.x)).sum,
        y := acc.y + (boxes.map (·.y)).sum,
        width := acc.width + (boxes.map (·.width)).sum,
        height := acc.height + (boxes.map (·.height)).sum } := by
  intro boxes
  induction boxes with
  | nil =>
    intro acc
    cases acc
    simp
  | cons b t ih =>
    intro acc
    rw [List.foldl_cons, ih]
    simp only [List.map_cons, List.sum_cons, BoundingBox.mk.injEq]
    refine ⟨by ring, by ring, by ring, by ring⟩

/-- C9: for every non-empty list of boxes the aggregate bounding box is the
componentwise arithmetic mean of x, y, width and height. -/
theorem averageBoundingBox_is_mean (boxes : List BoundingBox) (h : boxes ≠ []) :
    averageBoundingBox boxes =
      { x := (boxes.map (·.x)).sum / boxes.length,
        y := (boxes.map (·.y)).sum / boxes.length,
        width := (boxes.map (·.width)).sum / boxes.length,
        height := (boxes.map (·.height)).sum / boxes.length } := by
  rw [averageBoundingBox, sumBoundingBox, sumBoundingBox_spec]
  simp

/-- C5 (amended): every produced instance's duration is endTime minus
startTime, except that a zero difference falls back to one (the JS falsy
or-default), which is not a floor at one. -/
theorem instance_duration_fallback (uuid : ℕ → String) (frames : List RawFrameAnalysis)
    (fps : ℚ) (inst : ConsolidatedTextInstance)
    (h : inst ∈ aggregateDetections uuid frames fps) :
    inst.duration =
      if inst.endTime - inst.startTime = 0 then 1 else inst.endTime - inst.startTime := by
  obtain ⟨i, k, g, hg, hlen, hbuild⟩ := mem_aggregateDetections uuid frames fps inst h
  have hgne : g ≠ [] := by
    intro hc
    rw [hc] at hlen
    simp at hlen
  cases hs : sortByFrame g with
  | nil => exact absurd hs (sortByFrame_ne_nil hgne)
  | cons d0 rest =>
    rw [hbuild, buildInstance_cons frames fps (uuid i) g d0 rest hs]

/-- C1: a normalized key with exactly one contributing detection yields no
instance, and every produced instance is backed by at least two
contributing detections of its own normalized key. -/
theorem noiseFilter_two_detections (uuid : ℕ → String) (frames : List RawFrameAnalysis)
    (fps : ℚ) (key : String) (inst : ConsolidatedTextInstance)
    (h : inst ∈ aggregateDetections uuid frames fps) :
    2 ≤ ((allDetections frames).filter
        (fun d => normalizeText d.text == normalizeText inst.text)).length
    ∧ (((allDetections frames).filter (fun d => normalizeText d.text == key)).length = 1 →
        normalizeText inst.text ≠ key) := by
  obtain ⟨d, _, _, _, _, hlen, _⟩ := instance_group_spec uuid frames fps inst h
  refine ⟨hlen, ?_⟩
  intro hone hc
  rw [hc, hone] at hlen
  omega

/-- C3: every produced instance carries the verbatim text and the exact
confidence of a maximal-confidence detection among the contributing
detections of its normalized key. -/
theorem instance_text_from_best_confidence (uuid : ℕ → String)
    (frames : List RawFrameAnalysis) (fps : ℚ) (inst : ConsolidatedTextInstance)
    (h : inst ∈ aggregateDetections uuid frames fps) :
    ∃ d ∈ (allDetections frames).filter
        (fun x => normalizeText x.text == normalizeText inst.text),
      inst.text = d.text
      ∧ inst.detectionConfidence = d.confidence
      ∧ ∀ x ∈ (allDetections frames).filter
          (fun x => normalizeText x.text == normalizeText inst.text),
        x.confidence ≤ d.confidence := by
  obtain ⟨d, hmem, htext, hconf, hmax, _, _⟩ := instance_group_spec uuid frames fps inst h
  exact ⟨d, hmem, htext, hconf, hmax⟩

/-- C10: a detection whose text normalizes to the empty string joins no
group, and every produced instance's normalized key is non-empty. -/
theorem empty_key_excluded (uuid : ℕ → String) (frames : List RawFrameAnalysis)
    (fps : ℚ) :
    (∀ k g, (k, g) ∈ detectionGroups frames → ∀ d ∈ g, normalizeText d.text ≠ "")
    ∧ (∀ inst ∈ aggregateDetections uuid frames fps, normalizeText inst.text ≠ "") := by
  constructor
  · intro k g hg d hd
    obtain ⟨hk, hgf⟩ := detectionGroups_filter frames k g hg
    have hmemf := hgf ▸ hd
    have h2 := (List.mem_filter.1 hmemf).2
    have h3 : normalizeText d.text = k := by simpa using h2
    rw [h3]
    exact hk
  · intro inst h
    obtain ⟨_, _, _, _, _, _, hne⟩ := instance_group_spec uuid frames fps inst h
    exact hne

/-- C7: an overlay whose id is absent from the role map gets role BODY; in
particular an empty role map makes every overlay's role BODY. -/
theorem missing_role_defaults_to_body (uuid : ℕ → String) (collab : Collaborators)
    (frames : List RawFrameAnalysis) (fps : ℚ) :
    (∀ o ∈ (processVideo uuid collab frames fps).overlays,
        collab.roleMap o.id = none → o.role = TextRole.BODY)
    ∧ ((∀ s, collab.roleMap s = none) →
        ∀ o ∈ (processVideo uuid collab frames fps).overlays, o.role = TextRole.BODY) := by
  have hmain : ∀ o ∈ (processVideo uuid collab frames fps).overlays,
      collab.roleMap o.id = none → o.role = TextRole.BODY := by
    intro o ho hnone
    rw [processVideo] at ho
    rcases List.mem_map.1 ho with ⟨c, _, henr⟩
    rw [← henr] at hnone ⊢
    rw [enrichOverlay] at hnone ⊢
    simp only at hnone ⊢
    rw [hnone]
    rfl
  exact ⟨hmain, fun hall o ho => hmain o ho (hall o.id)⟩

theorem buildInstance_id (frames : List RawFrameAnalysis) (fps : ℚ) (i : String)
    (g : List RawTextDetection) : (buildInstance frames fps i g).id = i := by
  cases hs : sortByFrame g with
  | nil => rw [buildInstance, hs]
  | cons d0 rest => rw [buildInstance_cons frames fps i g d0 rest hs]

theorem buildInstance_id_swap (frames : List RawFrameAnalysis) (fps : ℚ)
    (g : List RawTextDetection) (a b : String) :
    buildInstance frames fps a g = { buildInstance frames fps b g with id := a } := by
  cases hs : sortByFrame g with
  | nil => simp [buildInstance, hs]
  | cons d0 rest =>
    rw [buildInstance_cons frames fps a g d0 rest hs,
      buildInstance_cons frames fps b g d0 rest hs]

theorem instance_id_eta (c : ConsolidatedTextInstance) (s : String) (h : c.id = s) :
    { c with id := s } = c := by
  cases c
  simp only at h
  simp [h]

/-- Erase the uuid-valued id of an overlay. -/
def eraseOverlayId (o : EnrichedOverlay) : EnrichedOverlay :=
  { o with id := "" }

/-- Erase every uuid-valued field of a result: the projectId and each
overlay's id. -/
def erasePipelineIds (r : PipelineResult) : PipelineResult :=
  { r with projectId := "", overlays := r.overlays.map eraseOverlayId }

theorem erase_enrich_id (collab : Collaborators) (c : ConsolidatedTextInstance)
    (a b : String) (hrole : collab.roleMap a = collab.roleMap b)
    (hlayout : collab.layoutMap a = collab.layoutMap b) :
    eraseOverlayId (enrichOverlay collab { c with id := a }) =
      eraseOverlayId (enrichOverlay collab { c with id := b }) := by
  cases c
  simp [eraseOverlayId, enrichOverlay, hrole, hlayout]

/-- C2 (amended): with the collaborator results held fixed, two runs of
processVideo on the same input agree everywhere except on the
uuidv4-generated fields, namely the projectId and each overlay's id,
provided the keyed layout and role maps answer equally on the ids the two
runs generate (for instance because the fresh ids hit neither map). -/
theorem processVideo_deterministic_up_to_uuids
    (frames : List RawFrameAnalysis) (fps : ℚ) (collab : Collaborators)
    (u1 u2 : ℕ → String)
    (hrole : ∀ n, collab.roleMap (u1 n) = collab.roleMap (u2 n))
    (hlayout : ∀ n, collab.layoutMap (u1 n) = collab.layoutMap (u2 n)) :
    erasePipelineIds (processVideo u1 collab frames fps) =
      erasePipelineIds (processVideo u2 collab frames fps) := by
  have hov : ((aggregateDetections u1 frames fps).map (enrichOverlay collab)).map
        eraseOverlayId =
      ((aggregateDetections u2 frames fps).map (enrichOverlay collab)).map
        eraseOverlayId := by
    rw [aggregateDetections, aggregateDetections, List.map_map, List.map_map,
      List.map_map, List.map_map]
    apply List.map_congr_left
    intro p _
    show eraseOverlayId (enrichOverlay collab (buildInstance frames fps (u1 p.1) p.2.2)) =
      eraseOverlayId (enrichOverlay collab (buildInstance frames fps (u2 p.1) p.2.2))
    rw [buildInstance_id_swap frames fps p.2.2 (u1 p.1) (u2 p.1)]
    conv_rhs =>
      rw [← instance_id_eta (buildInstance frames fps (u2 p.1) p.2.2) (u2 p.1)
        (buildInstance_id frames fps (u2 p.1) p.2.2)]
    exact erase_enrich_id collab (buildInstance frames fps (u2 p.1) p.2.2)
      (u1 p.1) (u2 p.1) (hrole p.1) (hlayout p.1)
  rw [erasePipelineIds, erasePipelineIds, processVideo, processVideo]
  simp only [hov]

theorem except_bind_ok {α β : Type} (x : Except String α) (f : α → Except String β)
    (b : β) (h : x >>= f = Except.ok b) :
    ∃ a, x = Except.ok a ∧ f a = Except.ok b := by
  cases x with
  | error e => exact Except.noConfusion h
  | ok a => exact ⟨a, rfl, h⟩

theorem mapExcept_ok_forall {α β : Type} (f : α → Except String β) :
    ∀ (l : List α) (res : List β), mapExcept f l = Except.ok res →
      ∀ a ∈ l, ∃ b, f a = Except.ok b := by
  intro l
  induction l with
  | nil =>
    intro res _ a ha
    simp at ha
  | cons x t ih =>
    intro res h a ha
    rw [mapExcept] at h
    obtain ⟨b, hb, hrest⟩ := except_bind_ok _ _ _ h
    obtain ⟨bs, hbs, _⟩ := except_bind_ok _ _ _ hrest
    rcases List.mem_cons.1 ha with h1 | h1
    · exact ⟨b, h1 ▸ hb⟩
    · exact ih bs hbs a h1

theorem mem_enumFrom_of_mem {α : Type} :
    ∀ (l : List α) (a : α) (n : ℕ), a ∈ l → ∃ i, (i, a) ∈ l.enumFrom n := by
  intro l
  induction l with
  | nil =>
    intro a n ha
    simp at ha
  | cons x t ih =>
    intro a n ha
    rcases List.mem_cons.1 ha with h1 | h1
    · subst h1
      exact ⟨n, by rw [List.enumFrom]; exact List.mem_cons_self _ _⟩
    · obtain ⟨i, hi⟩ := ih a (n + 1) h1
      exact ⟨i, by rw [List.enumFrom]; exact List.mem_cons_of_mem _ hi⟩

/-- C6 (amended): a detection missing its bounding box is not skipped during
grouping; it still joins the group of its normalized key, and whenever that
group passes the noise filter the whole consolidation aborts with the JS
type error instead of completing. -/
theorem malformed_detection_breaks_batch (uuid : ℕ → String)
    (frames : List RawFrameAnalysisOpt) (fps : ℚ) (k : String)
    (g : List RawTextDetectionOpt) (d : RawTextDetectionOpt)
    (hg : (k, g) ∈ survivingGroupsOpt frames) (hd : d ∈ g)
    (hbb : d.boundingBox = none) :
    ∃ e, aggregateDetectionsOpt uuid frames fps = Except.error e := by
  cases hres : aggregateDetectionsOpt uuid frames fps with
  | error e => exact ⟨e, rfl⟩
  | ok l =>
    exfalso
    obtain ⟨i, hi⟩ := mem_enumFrom_of_mem (survivingGroupsOpt frames) (k, g) 0 hg
    rw [aggregateDetectionsOpt] at hres
    have hok := mapExcept_ok_forall _ _ l hres (i, (k, g)) (by simpa [List.enum] using hi)
    obtain ⟨inst, hinst⟩ := hok
    have hlen : 2 ≤ g.length := by
      rw [survivingGroupsOpt] at hg
      have h2 := List.mem_filter.1 hg
      simpa using h2.2
    have hgne : g ≠ [] := by
      intro hc
      rw [hc] at hlen
      simp at hlen
    cases hs : sortByFrameOpt g with
    | nil =>
      apply hgne
      have hlen2 := congrArg List.length hs
      rw [sortByFrameOpt, length_sortStable, List.length_nil] at hlen2
      exact List.length_eq_zero.1 hlen2
    | cons d0 rest =>
      rw [buildInstanceOpt, hs] at hinst
      obtain ⟨mp, _, hrest⟩ := except_bind_ok _ _ _ hinst
      obtain ⟨boxes, hboxes, _⟩ := except_bind_ok _ _ _ hrest
      have hdmem : d ∈ d0 :: rest := by
        rw [← hs]
        exact (mem_sortStable _ _ _).2 hd
      obtain ⟨bb, hbb2⟩ := mapExcept_ok_forall getBoundingBox (d0 :: rest) boxes hboxes d hdmem
      rw [getBoundingBox, hbb] at hbb2
      exact Except.noConfusion hbb2

/-! ### Claim C8 and concrete evaluation inputs -/

/-- C8: determineEasing returns linear below 3 keyframes; otherwise, on the
per-step velocity profile, ease-in when the first half average is below 70
percent of the second, ease-out when the second is below 70 percent of the
first, linear when they differ by less than 30 percent of the first half
average, and ease-in-out otherwise, tested in that order. -/
theorem determineEasing_spec (kfs : List TrackKeyframe) :
    (kfs.length < 3 → determineEasing kfs = Easing.linear)
    ∧ (3 ≤ kfs.length →
        (firstHalfAvg (trackVelocities kfs) < secondHalfAvg (trackVelocities kfs) * 0.7 →
            determineEasing kfs = Easing.easeIn)
        ∧ (¬ firstHalfAvg (trackVelocities kfs) < secondHalfAvg (trackVelocities kfs) * 0.7 →
            secondHalfAvg (trackVelocities kfs) < firstHalfAvg (trackVelocities kfs) * 0.7 →
            determineEasing kfs = Easing.easeOut)
        ∧ (¬ firstHalfAvg (trackVelocities kfs) < secondHalfAvg (trackVelocities kfs) * 0.7 →
            ¬ secondHalfAvg (trackVelocities kfs) < firstHalfAvg (trackVelocities kfs) * 0.7 →
            |firstHalfAvg (trackVelocities kfs) - secondHalfAvg (trackVelocities kfs)| <
              firstHalfAvg (trackVelocities kfs) * 0.3 →
            determineEasing kfs = Easing.linear)
        ∧ (¬ firstHalfAvg (trackVelocities kfs) < secondHalfAvg (trackVelocities kfs) * 0.7 →
            ¬ secondHalfAvg (trackVelocities kfs) < firstHalfAvg (trackVelocities kfs) * 0.7 →
            ¬ |firstHalfAvg (trackVelocities kfs) - secondHalfAvg (trackVelocities kfs)| <
              firstHalfAvg (trackVelocities kfs) * 0.3 →
            determineEasing kfs = Easing.easeInOut)) := by
  constructor
  · intro h
    rw [determineEasing, if_pos h]
  · intro h3
    have hn : ¬ kfs.length < 3 := not_lt.2 h3
    refine ⟨?_, ?_, ?_, ?_⟩
    · intro h1
      rw [determineEasing, if_neg hn, if_pos h1]
    · intro h1 h2
      rw [determineEasing, if_neg hn, if_neg h1, if_pos h2]
    · intro h1 h2 hlin
      rw [determineEasing, if_neg hn, if_neg h1, if_neg h2, if_pos hlin]
    · intro h1 h2 hlin
      rw [determineEasing, if_neg hn, if_neg h1, if_neg h2, if_neg hlin]

def kfsE : List TrackKeyframe := [⟨0, 0, 0⟩, ⟨1, 1, 0⟩, ⟨2, 11, 0⟩]

theorem sqrt_hundred : Real.sqrt 100 = 10 := by
  rw [show (100 : ℝ) = 10 ^ 2 by norm_num]
  exact Real.sqrt_sq (by norm_num)

theorem trackVelocities_kfsE : trackVelocities kfsE = [1, 10] := by
  rw [trackVelocities, kfsE]
  simp only [List.tail_cons, List.zip_cons_cons, List.zip_nil_right, List.map_cons,
    List.map_nil]
  norm_num [sqrt_hundred]

theorem firstHalfAvg_kfsE : firstHalfAvg (trackVelocities kfsE) = 1 := by
  rw [trackVelocities_kfsE, firstHalfAvg]
  norm_num [listSumR]

theorem secondHalfAvg_kfsE : secondHalfAvg (trackVelocities kfsE) = 10 := by
  rw [trackVelocities_kfsE, secondHalfAvg]
  norm_num [listSumR]

theorem determineEasing_witness :
    determineEasing [] = Easing.linear ∧ determineEasing kfsE = Easing.easeIn := by
  constructor
  · exact (determineEasing_spec []).1 (by simp)
  · refine ((determineEasing_spec kfsE).2 (by simp [kfsE])).1 ?_
    rw [firstHalfAvg_kfsE, secondHalfAvg_kfsE]
    norm_num

/-! ### Concrete inputs for witnesses and counterexamples -/

/-- The reference box of the spec's aggregation example. -/
def bbDemo : BoundingBox := ⟨10, 80, 30, 8⟩

/-- Low-confidence spelling of the demo caption, frame 0. -/
def detGo0 : RawTextDetection :=
  { text := "Subscribe", frameIndex := 0, boundingBox := bbDemo, confidence := 0,
    language := none }

/-- High-confidence spelling of the demo caption, frame 1. -/
def detGo1 : RawTextDetection :=
  { text := "SUBSCRIBE", frameIndex := 1, boundingBox := bbDemo, confidence := 1,
    language := none }

/-- A caption seen in a single frame only. -/
def detOnce : RawTextDetection :=
  { text := "ONCE", frameIndex := 0, boundingBox := bbDemo, confidence := 1,
    language := none }

/-- Two frames: the caption in both, the singleton flash only in the first. -/
def demoFrames : List RawFrameAnalysis :=
  [{ frameIndex := 0, timestamp := 0, detections := [detGo0, detOnce],
     visuals := emptyVisuals },
   { frameIndex := 1, timestamp := 0, detections := [detGo1],
     visuals := emptyVisuals }]

/-- Punctuation-only detections (normalized key empty) in two frames. -/
def detBang0 : RawTextDetection :=
  { text := "!!!", frameIndex := 0, boundingBox := bbDemo, confidence := 1,
    language := none }

/-- Punctuation-only detection, second frame. -/
def detBang1 : RawTextDetection :=
  { text := "!!!", frameIndex := 1, boundingBox := bbDemo, confidence := 1,
    language := none }

/-- Two frames carrying only punctuation detections. -/
def demoBang : List RawFrameAnalysis :=
  [{ frameIndex := 0, timestamp := 0, detections := [detBang0],
     visuals := emptyVisuals },
   { frameIndex := 1, timestamp := 0, detections := [detBang1],
     visuals := emptyVisuals }]

/-- A uuid supply of one run. -/
def uuidA : ℕ → String := fun _ => "A"

/-- A uuid supply of another run. -/
def uuidB : ℕ → String := fun _ => "B"

/-- Collaborator results that enrich nothing. -/
def collabEmpty : Collaborators :=
  { layoutMap := fun _ => none, roleMap := fun _ => none,
    rawDesignSystem := none, variationMap := [] }

theorem survivingGroups_demo :
    survivingGroups demoFrames = [("subscribe", [detGo0, detGo1])] := by decide

theorem aggregate_demo :
    aggregateDetections uuidA demoFrames 30 =
      [buildInstance demoFrames 30 "A" [detGo0, detGo1]] := by
  rw [aggregateDetections, survivingGroups_demo]
  rfl

theorem demoInstance_mem :
    buildInstance demoFrames 30 "A" [detGo0, detGo1] ∈
      aggregateDetections uuidA demoFrames 30 := by
  rw [aggregate_demo]
  exact List.mem_singleton_self _

/-- Witness for C1 at the demo input: the produced instance's key has two
contributing detections, and the singleton key once yields no instance. -/
theorem noiseFilter_two_detections_witness :
    2 ≤ ((allDetections demoFrames).filter
        (fun d => normalizeText d.text ==
          normalizeText (buildInstance demoFrames 30 "A" [detGo0, detGo1]).text)).length
    ∧ ((allDetections demoFrames).filter
        (fun d => normalizeText d.text == "once")).length = 1
    ∧ normalizeText (buildInstance demoFrames 30 "A" [detGo0, detGo1]).text ≠ "once" := by
  have h := noiseFilter_two_detections uuidA demoFrames 30 ("once")
    (buildInstance demoFrames 30 "A" [detGo0, detGo1]) demoInstance_mem
  have hone : ((allDetections demoFrames).filter
      (fun d => normalizeText d.text == "once")).length = 1 := by decide
  exact ⟨h.1, hone, h.2 hone⟩

/-- Witness for C3 at the demo input; the canonical text is the verbatim
spelling of the confidence-1 detection. -/
theorem instance_text_from_best_confidence_witness :
    (∃ d ∈ (allDetections demoFrames).filter
        (fun x => normalizeText x.text ==
          normalizeText (buildInstance demoFrames 30 "A" [detGo0, detGo1]).text),
      (buildInstance demoFrames 30 "A" [detGo0, detGo1]).text = d.text
      ∧ (buildInstance demoFrames 30 "A" [detGo0, detGo1]).detectionConfidence =
          d.confidence
      ∧ ∀ x ∈ (allDetections demoFrames).filter
          (fun x => normalizeText x.text ==
            normalizeText (buildInstance demoFrames 30 "A" [detGo0, detGo1]).text),
        x.confidence ≤ d.confidence)
    ∧ (buildInstance demoFrames 30 "A" [detGo0, detGo1]).text = "SUBSCRIBE" := by
  constructor
  · exact instance_text_from_best_confidence uuidA demoFrames 30 _ demoInstance_mem
  · decide

/-- Witness for C10 at the demo inputs: the produced instance's key is
non-empty, the demo group holds no empty-key detection, and a video whose
only text is punctuation yields no instance at all. -/
theorem empty_key_excluded_witness :
    normalizeText (buildInstance demoFrames 30 "A" [detGo0, detGo1]).text ≠ ""
    ∧ (∀ d ∈ [detGo0, detGo1], normalizeText d.text ≠ "")
    ∧ aggregateDetections uuidA demoBang 30 = [] := by
  refine ⟨(empty_key_excluded uuidA demoFrames 30).2 _ demoInstance_mem, ?_, by decide⟩
  exact (empty_key_excluded uuidA demoFrames 30).1 ("subscribe") [detGo0, detGo1] (by decide)

/-- Witness for C5 (amended) at the demo input. -/
theorem instance_duration_fallback_witness :
    (buildInstance demoFrames 30 "A" [detGo0, detGo1]).duration =
      if (buildInstance demoFrames 30 "A" [detGo0, detGo1]).endTime -
          (buildInstance demoFrames 30 "A" [detGo0, detGo1]).startTime = 0 then 1
      else (buildInstance demoFrames 30 "A" [detGo0, detGo1]).endTime -
          (buildInstance demoFrames 30 "A" [detGo0, detGo1]).startTime :=
  instance_duration_fallback uuidA demoFrames 30 _ demoInstance_mem

/-- Counterexample to C5 as stated: the demo instance spans frames 0 to 1 at
30 fps, so endTime minus startTime is 1/30 and the recorded duration is
1/30, not max(1/30, 1) = 1; durations below one time unit do occur. -/
theorem duration_not_floored_to_one :
    (buildInstance demoFrames 30 "A" [detGo0, detGo1]).duration = 1 / 30
    ∧ (buildInstance demoFrames 30 "A" [detGo0, detGo1]).endTime -
        (buildInstance demoFrames 30 "A" [detGo0, detGo1]).startTime = 1 / 30
    ∧ buildInstance demoFrames 30 "A" [detGo0, detGo1] ∈
        aggregateDetections uuidA demoFrames 30
    ∧ ¬ ((1 : ℚ) / 30 = max ((1 : ℚ) / 30) 1) := by
  have hs : sortByFrame [detGo0, detGo1] = [detGo0, detGo1] := by decide
  have hbc := buildInstance_cons demoFrames 30 "A" [detGo0, detGo1] detGo0 [detGo1] hs
  refine ⟨?_, ?_, demoInstance_mem, ?_⟩
  · rw [hbc]
    norm_num [detGo0, detGo1, List.getLastD]
  · rw [hbc]
    norm_num [detGo0, detGo1, List.getLastD]
  · rw [max_eq_right (by norm_num : (1 : ℚ) / 30 ≤ 1)]
    norm_num

/-- Witness for C4 at the demo group: both detections share one box, so the
total variance is 0 and the path is classified STATIC. -/
theorem calculateMotionPath_variance_classification_witness :
    (calculateMotionPath [detGo0, detGo1] 30 0).variance =
        specPopulationVariance
          ((calculateMotionPath [detGo0, detGo1] 30 0).keyframes.map (·.x))
          + specPopulationVariance
            ((calculateMotionPath [detGo0, detGo1] 30 0).keyframes.map (·.y))
    ∧ (calculateMotionPath [detGo0, detGo1] 30 0).type = MotionType.STATIC := by
  have h := calculateMotionPath_variance_classification [detGo0, detGo1] 30 0 (by decide)
  refine ⟨h.1, h.2.1 ?_⟩
  have hv : (calculateMotionPath [detGo0, detGo1] 30 0).variance = 0 := by
    norm_num [calculateMotionPath, keyframeTotalVariance, motionKeyframes, sortByTime,
      sortStable, insertSorted, calculateVariance, listSum, detGo0, detGo1, bbDemo]
  rw [hv]
  norm_num

/-- Witness for C9: three copies of the reference box average back to it. -/
theorem averageBoundingBox_is_mean_witness :
    averageBoundingBox [bbDemo, bbDemo, bbDemo] = bbDemo
    ∧ ([bbDemo, bbDemo, bbDemo] : List BoundingBox) ≠ [] := by
  constructor
  · rw [averageBoundingBox_is_mean [bbDemo, bbDemo, bbDemo] (by simp)]
    norm_num [bbDemo]
  · simp

theorem overlays_demo_A :
    (processVideo uuidA collabEmpty demoFrames 30).overlays =
      [enrichOverlay collabEmpty (buildInstance demoFrames 30 "A" [detGo0, detGo1])] := by
  show (aggregateDetections uuidA demoFrames 30).map (enrichOverlay collabEmpty) = _
  rw [aggregate_demo]
  rfl

theorem overlays_demo_B :
    (processVideo uuidB collabEmpty demoFrames 30).overlays =
      [enrichOverlay collabEmpty (buildInstance demoFrames 30 "B" [detGo0, detGo1])] := by
  show (aggregateDetections uuidB demoFrames 30).map (enrichOverlay collabEmpty) = _
  rw [aggregateDetections, survivingGroups_demo]
  rfl

/-- Witness for C7 at the demo input with an empty role map: the single
produced overlay has role BODY. -/
theorem missing_role_defaults_to_body_witness :
    (processVideo uuidA collabEmpty demoFrames 30).overlays.map (fun o => o.role) =
      [TextRole.BODY] := by
  have hmap := (missing_role_defaults_to_body uuidA collabEmpty demoFrames 30).2
    (fun s => rfl)
  have hrole := hmap
    (enrichOverlay collabEmpty (buildInstance demoFrames 30 "A" [detGo0, detGo1]))
    (by rw [overlays_demo_A]; exact List.mem_singleton_self _)
  rw [overlays_demo_A]
  simp only [List.map_cons, List.map_nil]
  rw [hrole]

/-- Counterexample to C2 as stated: with identical input and identical
collaborator results but fresh uuids, the two results still differ after
removing the projectId, because each overlay id is uuidv4-generated too. -/
theorem processVideo_not_identical_except_projectId :
    ¬ ({ processVideo uuidA collabEmpty demoFrames 30 with projectId := "" } =
        { processVideo uuidB collabEmpty demoFrames 30 with projectId := "" }) := by
  intro h
  have h2 := congrArg (fun r => r.overlays.map (fun o => o.id)) h
  simp only at h2
  have hA : (processVideo uuidA collabEmpty demoFrames 30).overlays.map
      (fun o => o.id) = ["A"] := by
    rw [overlays_demo_A]
    simp only [List.map_cons, List.map_nil]
    rw [show (enrichOverlay collabEmpty
        (buildInstance demoFrames 30 "A" [detGo0, detGo1])).id = "A" from
      buildInstance_id demoFrames 30 "A" [detGo0, detGo1]]
  have hB : (processVideo uuidB collabEmpty demoFrames 30).overlays.map
      (fun o => o.id) = ["B"] := by
    rw [overlays_demo_B]
    simp only [List.map_cons, List.map_nil]
    rw [show (enrichOverlay collabEmpty
        (buildInstance demoFrames 30 "B" [detGo0, detGo1])).id = "B" from
      buildInstance_id demoFrames 30 "B" [detGo0, detGo1]]
  rw [hA, hB] at h2
  exact absurd h2 (by decide)

/-- Witness for C2 (amended) at the demo input with empty collaborator maps. -/
theorem processVideo_deterministic_up_to_uuids_witness :
    erasePipelineIds (processVideo uuidA collabEmpty demoFrames 30) =
      erasePipelineIds (processVideo uuidB collabEmpty demoFrames 30) :=
  processVideo_deterministic_up_to_uuids demoFrames 30 collabEmpty uuidA uuidB
    (fun _ => rfl) (fun _ => rfl)

/-- A well-formed runtime detection of the caption, frame 0. -/
def detHi0 : RawTextDetectionOpt :=
  { text := "HI", frameIndex := 0, boundingBox := some bbDemo, confidence := 1,
    language := none }

/-- A runtime detection of the same caption missing its bounding box. -/
def detHi1 : RawTextDetectionOpt :=
  { text := "HI", frameIndex := 1, boundingBox := none, confidence := 1,
    language := none }

/-- Two frames whose caption group contains a malformed detection. -/
def demoFramesBad : List RawFrameAnalysisOpt :=
  [{ frameIndex := 0, timestamp := 0, detections := [detHi0],
     visuals := emptyVisuals },
   { frameIndex := 1, timestamp := 0, detections := [detHi1],
     visuals := emptyVisuals }]

/-- Counterexample to C6 as stated: on a frame sequence with a detection
missing its bounding box whose group survives the noise filter, the
consolidation does not complete and skip it; it aborts with the JS type
error. -/
theorem aggregate_throws_on_missing_bbox :
    aggregateDetectionsOpt uuidA demoFramesBad 30 =
      Except.error ("TypeError: Cannot read properties of undefined") := by rfl

/-- Witness for C6 (amended) at the malformed demo input. -/
theorem malformed_detection_breaks_batch_witness :
    ∃ e, aggregateDetectionsOpt uuidB demoFramesBad 30 = Except.error e :=
  malformed_detection_breaks_batch uuidB demoFramesBad 30 ("hi") [detHi0, detHi1] detHi1
    (by decide) (by decide) rfl
